import Mathlib

/-!
Shallow embedding of `xen-dmbus.c` (qemu-1.4 dmbus client): framing,
dispatch, reconnection, send path.  Transport reads and writes are driven
by an explicit oracle of I/O events; machine bytes are `Nat` values below
256 and the wire header fields are decoded little-endian.
-/

/-- Size in bytes of `struct dmbus_msg_hdr`.  Modelled from the spec:
the header layout (type tag then total length, each a 32-bit field) lives
in the external protocol library `libdmbus`, not in this repository's
sources. -/
def hdrSize : Nat := 8

/-- Capacity of `s->buff`.  Modelled from the spec: `DMBUS_MAX_MSG_LEN`
is defined by the external protocol library; capacity equals the maximum
legal message size. -/
def DMBUS_MAX_MSG_LEN : Nat := 4096

/-- Linux errno for an interrupted call. -/
def EINTR : Nat := 4

/-- Linux errno for a would-block condition on a non-blocking descriptor. -/
def EAGAIN : Nat := 11

/-- Linux errno for connection reset by peer. -/
def ECONNRESET : Nat := 104

/-- Byte `i` of a buffer (0 when out of range, matching a read of
uninitialised storage as an unconstrained value fixed to 0). -/
def byteAt (b : List Nat) (i : Nat) : Nat := b.getD i 0

/-- Decode of the 32-bit little-endian `msg_type` field at offset 0. -/
def msg_type (b : List Nat) : Nat :=
  byteAt b 0 + 256 * byteAt b 1 + 65536 * byteAt b 2 + 16777216 * byteAt b 3

/-- Decode of the 32-bit little-endian `msg_len` field at offset 4. -/
def msg_len (b : List Nat) : Nat :=
  byteAt b 4 + 256 * byteAt b 5 + 65536 * byteAt b 6 + 16777216 * byteAt b 7

/-- Little-endian encoding of a 32-bit field. -/
def enc32 (n : Nat) : List Nat :=
  [n % 256, n / 256 % 256, n / 65536 % 256, n / 16777216 % 256]

/-- State of one `struct service`, together with the ghost observables the
claims talk about: the peer byte stream still to be delivered, teardown and
timer-arming counters, error-log counter, and the trace of frames handed to
`handle_message`.  `buff` holds exactly the `len` valid bytes. -/
structure RxState where
  buff : List Nat
  stream : List Nat
  timerPending : Bool
  fdRegistered : Bool
  fdOpen : Bool
  timerAllocated : Bool
  freed : Bool
  errLogs : Nat
  teardowns : Nat
  armings : Nat
  handled : List (List Nat)
deriving Repr, DecidableEq

/-- `handle_disconnect` (xen-dmbus.c:104): a no-op while the reconnection
timer is pending; otherwise unregisters the fd handler, closes the fd and
arms the timer.  `teardowns`/`armings` count the unregister+close and
`qemu_mod_timer` actions. -/
def handle_disconnect (st : RxState) : RxState :=
  if st.timerPending then st
  else { st with fdRegistered := false, fdOpen := false, timerPending := true,
                 teardowns := st.teardowns + 1, armings := st.armings + 1 }

/-- `n` iterated disconnect signals, each routed through
`handle_disconnect`. -/
def applyDisconnects : Nat → RxState → RxState
  | 0, st => st
  | n + 1, st => applyDisconnects n (handle_disconnect st)

/-- Whether the buffer holds a complete frame at its front
(`len >= sizeof(hdr) && len >= msg_len`). -/
def frameComplete (b : List Nat) : Bool :=
  decide (hdrSize ≤ b.length) && decide (msg_len b ≤ b.length)

/-- `pop_message` (xen-dmbus.c:89): no-op unless a complete frame is at the
front; otherwise shifts the remaining bytes down (`memmove` + `len -= len`),
i.e. drops the frame's `msg_len` bytes. -/
def pop_message (st : RxState) : RxState :=
  let len := msg_len st.buff
  if st.buff.length < hdrSize ∨ st.buff.length < len then st
  else { st with buff := st.buff.drop len }

/-- One transport receive outcome scheduled by the oracle: orderly close
(`rc = 0`), an error with the given errno (`rc = -1`), or `n` bytes
available.  On `avail n` the bytes delivered are taken from the front of
`stream`, bounded by the requested size `capacity - len` as in
`v4v_recv(s->fd, s->buff + s->len, sizeof(s->buff) - s->len, ...)`. -/
inductive RecvEv where
  | closed : RecvEv
  | err : Nat → RecvEv
  | avail : Nat → RecvEv
deriving Repr, DecidableEq

/-- Result of `sync_recv`: a complete frame at the buffer front (non-NULL
return), a NULL return (close or error), or oracle exhaustion. -/
inductive RecvOutcome where
  | gotFrame : RecvOutcome
  | failed : RecvOutcome
  | stuck : RecvOutcome
deriving Repr, DecidableEq

/-- Bytes actually delivered by one `recv` of `n` available bytes:
bounded by the free space in `buff` and by what the peer stream holds. -/
def recvCount (st : RxState) (n : Nat) : Nat :=
  min n (min (DMBUS_MAX_MSG_LEN - st.buff.length) st.stream.length)

/-- Append `k` delivered bytes from the peer stream into the buffer. -/
def appendBytes (st : RxState) (k : Nat) : RxState :=
  { st with buff := st.buff ++ st.stream.take k, stream := st.stream.drop k }

/-- `sync_recv` (xen-dmbus.c:116): loop while no complete frame is at the
front; `rc = 0` invokes `handle_disconnect` and returns NULL; `rc = -1`
retries on `EINTR` and otherwise logs the error and returns NULL; positive
`rc` appends the bytes.  A delivered count of 0 is the `rc = 0` case. -/
def sync_recv (evs : List RecvEv) (st : RxState) :
    List RecvEv × RxState × RecvOutcome :=
  if frameComplete st.buff then (evs, st, .gotFrame)
  else
    match evs with
    | [] => ([], st, .stuck)
    | .closed :: rest => (rest, handle_disconnect st, .failed)
    | .err e :: rest =>
        if e = EINTR then sync_recv rest st
        else (rest, { st with errLogs := st.errLogs + 1 }, .failed)
    | .avail n :: rest =>
        let k := recvCount st n
        if k = 0 then (rest, handle_disconnect st, .failed)
        else sync_recv rest (appendBytes st k)

/-- Result of the read phase of `dmbus_fd_handler` (the do/while loop at
xen-dmbus.c:151): data arrived, disconnect handled, a non-EINTR error was
logged, or the oracle ran out. -/
inductive ReadOutcome where
  | gotData : ReadOutcome
  | disconnected : ReadOutcome
  | errored : ReadOutcome
  | stuck : ReadOutcome
deriving Repr, DecidableEq

/-- The non-blocking read loop of `dmbus_fd_handler` (xen-dmbus.c:151):
reads until one read returns a positive count, retrying only on `EINTR`;
`rc = 0` invokes `handle_disconnect` and returns, any other error is logged
and the handler returns. -/
def fdReadLoop (evs : List RecvEv) (st : RxState) :
    List RecvEv × RxState × ReadOutcome :=
  match evs with
  | [] => ([], st, .stuck)
  | .closed :: rest => (rest, handle_disconnect st, .disconnected)
  | .err e :: rest =>
      if e = EINTR then fdReadLoop rest st
      else (rest, { st with errLogs := st.errLogs + 1 }, .errored)
  | .avail n :: rest =>
      let k := recvCount st n
      if k = 0 then (rest, handle_disconnect st, .disconnected)
      else (rest, appendBytes st k, .gotData)

/-- Message-type tag constants.  Modelled from the spec: the numeric values
of the `DMBUS_MSG_*` tags live in the external protocol library; only their
distinctness matters to this core. -/
def DMBUS_MSG_DOM0_INPUT_EVENT : Nat := 1

/-- See `DMBUS_MSG_DOM0_INPUT_EVENT`. -/
def DMBUS_MSG_DISPLAY_INFO : Nat := 2

/-- See `DMBUS_MSG_DOM0_INPUT_EVENT`. -/
def DMBUS_MSG_DISPLAY_EDID : Nat := 3

/-- See `DMBUS_MSG_DOM0_INPUT_EVENT`. -/
def DMBUS_MSG_DEVICE_MODEL_READY : Nat := 4

/-- See `DMBUS_MSG_DOM0_INPUT_EVENT`. -/
def DMBUS_MSG_INPUT_CONFIG : Nat := 5

/-- See `DMBUS_MSG_DOM0_INPUT_EVENT`. -/
def DMBUS_MSG_INPUT_CONFIG_RESET : Nat := 6

/-- The capability table `struct dmbus_ops`: which optional handler slots
are populated.  (The reconnect slot is not dispatched by `handle_message`.) -/
structure DmbusOps where
  dom0_input_event : Bool
  display_info : Bool
  display_edid : Bool
  input_config : Bool
  input_config_reset : Bool
deriving Repr, DecidableEq

/-- Observable outcome of `handle_message` on one frame. -/
inductive HandleResult where
  | invoked : Nat → HandleResult
  | unsetSlot : HandleResult
  | readyNoop : HandleResult
  | unrecognizedLogged : HandleResult
  | noTable : HandleResult
deriving Repr, DecidableEq

/-- `handle_message` (xen-dmbus.c:21): returns early when `s->ops` is NULL;
switches on `msg_type`, invoking the matching slot when set and silently
ignoring the frame when unset; `DMBUS_MSG_DEVICE_MODEL_READY` is a no-op;
an unrecognized tag is logged (stderr) and ignored. -/
def handle_message (ops : Option DmbusOps) (m : List Nat) : HandleResult :=
  match ops with
  | none => .noTable
  | some o =>
      let t := msg_type m
      if t = DMBUS_MSG_DOM0_INPUT_EVENT then
        if o.dom0_input_event then .invoked DMBUS_MSG_DOM0_INPUT_EVENT else .unsetSlot
      else if t = DMBUS_MSG_DISPLAY_INFO then
        if o.display_info then .invoked DMBUS_MSG_DISPLAY_INFO else .unsetSlot
      else if t = DMBUS_MSG_DISPLAY_EDID then
        if o.display_edid then .invoked DMBUS_MSG_DISPLAY_EDID else .unsetSlot
      else if t = DMBUS_MSG_DEVICE_MODEL_READY then .readyNoop
      else if t = DMBUS_MSG_INPUT_CONFIG then
        if o.input_config then .invoked DMBUS_MSG_INPUT_CONFIG else .unsetSlot
      else if t = DMBUS_MSG_INPUT_CONFIG_RESET then
        if o.input_config_reset then .invoked DMBUS_MSG_INPUT_CONFIG_RESET else .unsetSlot
      else .unrecognizedLogged

/-- Whether `handle_message` logs (only the unrecognized-tag default arm
prints). -/
def handleLogs : HandleResult → Bool
  | .unrecognizedLogged => true
  | _ => false

/-- Whether `handle_message` invoked a consumer handler. -/
def handleInvokes : HandleResult → Bool
  | .invoked _ => true
  | _ => false

/-- The dispatch-and-pop loop at the end of `dmbus_fd_handler`
(xen-dmbus.c:175): while a complete frame is at the front, pass it to
`handle_message` (recorded in `handled`) and pop it.  Fuel-indexed; `none`
means the fuel ran out before the loop condition turned false. -/
def processLoop (ops : Option DmbusOps) : Nat → RxState → Option RxState
  | 0, _ => none
  | fuel + 1, st =>
      if frameComplete st.buff then
        let m := st.buff.take (msg_len st.buff)
        processLoop ops fuel
          (pop_message { st with handled := st.handled ++ [m] })
      else some st

/-- `dmbus_fd_handler` (xen-dmbus.c:145): non-blocking read loop, then
`sync_recv` to complete a frame, then the dispatch-and-pop loop.  The
`Option` is `none` only when `processLoop`'s fuel ran out. -/
def dmbus_fd_handler (ops : Option DmbusOps) (fuel : Nat)
    (evs : List RecvEv) (st : RxState) :
    List RecvEv × RxState × Option Unit :=
  match fdReadLoop evs st with
  | (evs1, st1, .gotData) =>
      match sync_recv evs1 st1 with
      | (evs2, st2, .gotFrame) =>
          match processLoop ops fuel st2 with
          | some st3 => (evs2, st3, some ())
          | none => (evs2, st2, none)
      | (evs2, st2, _) => (evs2, st2, some ())
  | (evs1, st1, _) => (evs1, st1, some ())

/-- `dmbus_sync_recv` (xen-dmbus.c:183): `sync_recv`, then dispatch and pop
frames of other types until a frame of type `ty` is at the front; copy
`min size msg_len` bytes of it to the caller and pop it.  The result is
`none` when the fuel ran out, otherwise the remaining oracle, the final
state, and either the copied bytes with the returned count or `none` for
the `-1` return. -/
def dmbus_sync_recv (ops : Option DmbusOps) (ty size : Nat) :
    Nat → List RecvEv → RxState →
    Option (List RecvEv × RxState × Option (List Nat × Nat))
  | 0, _, _ => none
  | fuel + 1, evs, st =>
      match sync_recv evs st with
      | (evs1, st1, .gotFrame) =>
          if msg_type st1.buff = ty then
            let n := min size (msg_len st1.buff)
            some (evs1, pop_message st1, some (st1.buff.take n, n))
          else
            let m := st1.buff.take (msg_len st1.buff)
            dmbus_sync_recv ops ty size fuel evs1
              (pop_message { st1 with handled := st1.handled ++ [m] })
      | (evs1, st1, _) => some (evs1, st1, none)

/-- `dmbus_service_disconnect` (xen-dmbus.c:313): unregisters the fd
handler, frees the reconnection timer, closes the fd and frees the
service.  Modelled from the spec: the timer facility is external to this
repository's sources; releasing the timer cancels any pending deadline
("destroyed ... cancelling any pending timer"). -/
def dmbus_service_disconnect (st : RxState) : RxState :=
  { st with fdRegistered := false, timerAllocated := false,
            timerPending := false, fdOpen := false, freed := true }

/-- One transport send outcome scheduled by the oracle: `rc = n` bytes
accepted (capped by the requested `len - b`), or `rc = -1` with the given
errno. -/
inductive SendEv where
  | ok : Nat → SendEv
  | err : Nat → SendEv
deriving Repr, DecidableEq

/-- Result of `dmbus_send`: full message written (returns `b`), the `-1`
error return, or oracle exhaustion. -/
inductive SendResult where
  | done : Nat → SendResult
  | failed : SendResult
  | stuck : SendResult
deriving Repr, DecidableEq

/-- The partial-write loop of `dmbus_send` (xen-dmbus.c:338): send the
remaining `len - b` bytes; on success advance `b` and accumulate the chunk
actually transmitted; on `ECONNRESET` invoke `handle_disconnect` and return
`-1`; on any other error log it and return `-1`. -/
def sendLoop (data : List Nat) : List SendEv → RxState → Nat → List Nat →
    RxState × List Nat × SendResult
  | evs, st, b, tr =>
      if data.length ≤ b then (st, tr, .done b)
      else
        match evs with
        | [] => (st, tr, .stuck)
        | .ok n :: rest =>
            let chunk := (data.drop b).take n
            sendLoop data rest st (b + chunk.length) (tr ++ chunk)
        | .err e :: _ =>
            if e = ECONNRESET then (handle_disconnect st, tr, .failed)
            else ({ st with errLogs := st.errLogs + 1 }, tr, .failed)

/-- Header stamping of `dmbus_send` (xen-dmbus.c:335):
`hdr->msg_type = msgtype; hdr->msg_len = len;` written into the first
`hdrSize` bytes of the caller's buffer (32-bit fields, so values are taken
mod 2^32). -/
def stampHeader (msgtype : Nat) (data : List Nat) : List Nat :=
  enc32 msgtype ++ enc32 data.length ++ data.drop hdrSize

/-- `dmbus_send` (xen-dmbus.c:324): stamp the header, then run the
partial-write loop from offset 0.  Returns the final state, the transmitted
byte sequence, and the result. -/
def dmbus_send (evs : List SendEv) (st : RxState) (msgtype : Nat)
    (data : List Nat) : RxState × List Nat × SendResult :=
  sendLoop (stampHeader msgtype data) evs st 0 []

/-- Fuel-indexed greedy frame-goodness check of a byte sequence: whenever a
complete frame is at the front, its declared length is at least the header
size, and the remainder after that frame is good as well.  Fuel 0 is
`false` (unknown); `goodBuf` fixes the fuel at `length + 1`, which is
always sufficient. -/
def goodCheckF : Nat → List Nat → Bool
  | 0, _ => false
  | fuel + 1, b =>
      if frameComplete b then
        decide (hdrSize ≤ msg_len b) && goodCheckF fuel (b.drop (msg_len b))
      else true

/-- Frame goodness of a byte sequence (see `goodCheckF`). -/
def goodBuf (b : List Nat) : Prop := goodCheckF (b.length + 1) b = true

instance (b : List Nat) : Decidable (goodBuf b) :=
  inferInstanceAs (Decidable (goodCheckF (b.length + 1) b = true))

/-- Greedy parse of a byte sequence up to the first frame of type `X`:
returns the complete frames before it (all of type ≠ X by construction of
its use), the `X` frame itself, and the remainder.  `none` when no complete
`X` frame is reached. -/
def framesUpTo (X : Nat) : Nat → List Nat → Option (List (List Nat) × List Nat × List Nat)
  | 0, _ => none
  | fuel + 1, b =>
      if frameComplete b then
        let L := msg_len b
        if msg_type b = X then some ([], b.take L, b.drop L)
        else
          match framesUpTo X fuel (b.drop L) with
          | some (fs, fx, rest) => some (b.take L :: fs, fx, rest)
          | none => none
      else none


/-- A fresh connected service with an empty buffer, as produced by
`dmbus_service_connect`. -/
def initSt : RxState :=
  { buff := [], stream := [], timerPending := false, fdRegistered := true,
    fdOpen := true, timerAllocated := true, freed := false,
    errLogs := 0, teardowns := 0, armings := 0, handled := [] }

/-! ### Basic helper lemmas -/

theorem handle_disconnect_of_pending (st : RxState) (h : st.timerPending = true) :
    handle_disconnect st = st := by
  unfold handle_disconnect
  simp [h]

theorem handle_disconnect_buff (st : RxState) :
    (handle_disconnect st).buff = st.buff := by
  unfold handle_disconnect
  split <;> rfl

theorem frameComplete_iff (b : List Nat) :
    frameComplete b = true ↔ hdrSize ≤ b.length ∧ msg_len b ≤ b.length := by
  simp [frameComplete]

theorem pop_message_of_incomplete (st : RxState) (h : frameComplete st.buff = false) :
    pop_message st = st := by
  have h' : ¬ (hdrSize ≤ st.buff.length ∧ msg_len st.buff ≤ st.buff.length) := by
    rw [← frameComplete_iff]
    simp [h]
  unfold pop_message
  rw [if_pos (by omega)]

theorem pop_message_eq (st : RxState) (h : frameComplete st.buff = true) :
    pop_message st = { st with buff := st.buff.drop (msg_len st.buff) } := by
  unfold frameComplete at h
  unfold pop_message
  rw [if_neg]
  simp only [Bool.and_eq_true, decide_eq_true_eq] at h
  omega

/-! ### C1, C2, C7, C9 -/

/-- C1: if the reconnection timer is already armed, a disconnect signal is
a no-op for `handle_disconnect`, and so is any sequence of further
disconnect signals: no second teardown, no second arming, at most one
outstanding timer. -/
theorem reconnect_arming_idempotent (st : RxState) (n : Nat)
    (h : st.timerPending = true) :
    handle_disconnect st = st ∧ applyDisconnects n st = st := by
  have h1 : handle_disconnect st = st := handle_disconnect_of_pending st h
  refine ⟨h1, ?_⟩
  induction n with
  | zero => rfl
  | succ k ih =>
      show applyDisconnects k (handle_disconnect st) = st
      rw [h1]
      exact ih

/-- Witness for `reconnect_arming_idempotent` at a concrete armed state. -/
theorem reconnect_arming_idempotent_witness :
    handle_disconnect { initSt with timerPending := true } =
      { initSt with timerPending := true } ∧
    applyDisconnects 3 { initSt with timerPending := true } =
      { initSt with timerPending := true } :=
  reconnect_arming_idempotent { initSt with timerPending := true } 3 rfl

/-- C2: popping the leading frame of declared length `L` from a buffer of
`ℓ ≥ L` valid bytes (with `ℓ` at least the header size) leaves exactly
`ℓ - L` bytes, equal to the original bytes at positions `[L, ℓ)`. -/
theorem pop_message_invariant (st : RxState)
    (hh : hdrSize ≤ st.buff.length) (hl : msg_len st.buff ≤ st.buff.length) :
    (pop_message st).buff.length = st.buff.length - msg_len st.buff ∧
    (pop_message st).buff = st.buff.drop (msg_len st.buff) := by
  have hc : frameComplete st.buff = true := by
    unfold frameComplete
    simp [hh, hl]
  rw [pop_message_eq st hc]
  exact ⟨by simp, rfl⟩

/-- Witness for `pop_message_invariant` on a 9-byte frame followed by two
extra bytes. -/
theorem pop_message_invariant_witness :
    (pop_message { initSt with buff := [1,0,0,0, 9,0,0,0, 42, 7, 8] }).buff.length = 2 ∧
    (pop_message { initSt with buff := [1,0,0,0, 9,0,0,0, 42, 7, 8] }).buff = [7, 8] := by
  have h := pop_message_invariant { initSt with buff := [1,0,0,0, 9,0,0,0, 42, 7, 8] }
    (by decide) (by decide)
  exact ⟨h.1.trans (by decide), h.2.trans (by decide)⟩

/-- C7 (spec-modelled timer facility): destroying a service from any state
cancels any armed reconnection timer, unregisters the readiness callback,
closes the transport and releases the handle. -/
theorem service_disconnect_teardown (st : RxState) :
    (dmbus_service_disconnect st).timerPending = false ∧
    (dmbus_service_disconnect st).fdRegistered = false ∧
    (dmbus_service_disconnect st).fdOpen = false ∧
    (dmbus_service_disconnect st).timerAllocated = false ∧
    (dmbus_service_disconnect st).freed = true := by
  unfold dmbus_service_disconnect
  exact ⟨rfl, rfl, rfl, rfl, rfl⟩

/-- C9: a recognized tag with an unset handler slot is silently ignored
(no log, no invocation); an unrecognized tag is logged and ignored, and
`handle_message` still returns normally; the device-model-ready tag is a
no-op. -/
theorem dispatch_unset_unknown_policy (o : DmbusOps) (m : List Nat) :
    (msg_type m = DMBUS_MSG_DOM0_INPUT_EVENT ∧ o.dom0_input_event = false →
       handle_message (some o) m = .unsetSlot) ∧
    (msg_type m = DMBUS_MSG_DISPLAY_INFO ∧ o.display_info = false →
       handle_message (some o) m = .unsetSlot) ∧
    (msg_type m = DMBUS_MSG_DISPLAY_EDID ∧ o.display_edid = false →
       handle_message (some o) m = .unsetSlot) ∧
    (msg_type m = DMBUS_MSG_INPUT_CONFIG ∧ o.input_config = false →
       handle_message (some o) m = .unsetSlot) ∧
    (msg_type m = DMBUS_MSG_INPUT_CONFIG_RESET ∧ o.input_config_reset = false →
       handle_message (some o) m = .unsetSlot) ∧
    (msg_type m ≠ DMBUS_MSG_DOM0_INPUT_EVENT ∧ msg_type m ≠ DMBUS_MSG_DISPLAY_INFO ∧
     msg_type m ≠ DMBUS_MSG_DISPLAY_EDID ∧ msg_type m ≠ DMBUS_MSG_DEVICE_MODEL_READY ∧
     msg_type m ≠ DMBUS_MSG_INPUT_CONFIG ∧ msg_type m ≠ DMBUS_MSG_INPUT_CONFIG_RESET →
       handle_message (some o) m = .unrecognizedLogged) ∧
    (msg_type m = DMBUS_MSG_DEVICE_MODEL_READY →
       handle_message (some o) m = .readyNoop) ∧
    handleLogs .unsetSlot = false ∧ handleInvokes .unsetSlot = false ∧
    handleLogs .unrecognizedLogged = true ∧ handleInvokes .unrecognizedLogged = false ∧
    handleLogs .readyNoop = false ∧ handleInvokes .readyNoop = false := by
  unfold handle_message
  unfold DMBUS_MSG_DOM0_INPUT_EVENT DMBUS_MSG_DISPLAY_INFO DMBUS_MSG_DISPLAY_EDID
    DMBUS_MSG_DEVICE_MODEL_READY DMBUS_MSG_INPUT_CONFIG DMBUS_MSG_INPUT_CONFIG_RESET
  refine ⟨?_, ?_, ?_, ?_, ?_, ?_, ?_, rfl, rfl, rfl, rfl, rfl, rfl⟩
  · rintro ⟨h1, h2⟩; simp [h1, h2]
  · rintro ⟨h1, h2⟩; simp [h1, h2]
  · rintro ⟨h1, h2⟩; simp [h1, h2]
  · rintro ⟨h1, h2⟩; simp [h1, h2]
  · rintro ⟨h1, h2⟩; simp [h1, h2]
  · rintro ⟨h1, h2, h3, h4, h5, h6⟩; simp [h1, h2, h3, h4, h5, h6]
  · intro h1; simp [h1]

/-- Witness for `dispatch_unset_unknown_policy`: an all-unset table with a
recognized frame, an unknown frame, and a ready frame. -/
theorem dispatch_unset_unknown_policy_witness :
    handle_message (some ⟨false, false, false, false, false⟩) [1,0,0,0, 8,0,0,0] = .unsetSlot ∧
    handle_message (some ⟨false, false, false, false, false⟩) [99,0,0,0, 8,0,0,0] = .unrecognizedLogged ∧
    handle_message (some ⟨false, false, false, false, false⟩) [4,0,0,0, 8,0,0,0] = .readyNoop :=
  ⟨(dispatch_unset_unknown_policy ⟨false, false, false, false, false⟩ [1,0,0,0, 8,0,0,0]).1
      ⟨by decide, rfl⟩,
   (dispatch_unset_unknown_policy ⟨false, false, false, false, false⟩ [99,0,0,0, 8,0,0,0]).2.2.2.2.2.1
      ⟨by decide, by decide, by decide, by decide, by decide, by decide⟩,
   (dispatch_unset_unknown_policy ⟨false, false, false, false, false⟩ [4,0,0,0, 8,0,0,0]).2.2.2.2.2.2.1
      (by decide)⟩

/-! ### C3 and C6: error-handling behavior on the receive and send paths -/

/-- A well-formed 10-byte sample message buffer (header space plus two
payload bytes) for concrete runs. -/
def sampleMsg : List Nat := [0,0,0,0, 0,0,0,0, 7, 9]

/-- Counterexample to C3 as stated: a non-recoverable read error
(errno 111, connection refused) in the synchronous receive path is logged
and the call fails, but disconnect handling is NOT invoked (no teardown,
timer still unarmed); the asynchronous read loop behaves the same way. -/
theorem recv_error_no_disconnect_cex :
    sync_recv [RecvEv.err 111] initSt = ([], { initSt with errLogs := 1 }, .failed) ∧
    ({ initSt with errLogs := 1 }).timerPending = false ∧
    ({ initSt with errLogs := 1 }).teardowns = 0 ∧
    fdReadLoop [RecvEv.err 111] initSt = ([], { initSt with errLogs := 1 }, .errored) := by
  decide

/-- C3 amended: in both receive paths a zero-length read invokes disconnect
handling; a non-recoverable read error is reported (logged) and the path
returns failure, without invoking disconnect handling. -/
theorem recv_close_and_error_handling (ops : Option DmbusOps) (fuel : Nat)
    (evs : List RecvEv) (st : RxState) (e : Nat)
    (hb : frameComplete st.buff = false) (he : e ≠ EINTR) :
    sync_recv (RecvEv.closed :: evs) st = (evs, handle_disconnect st, .failed) ∧
    fdReadLoop (RecvEv.closed :: evs) st = (evs, handle_disconnect st, .disconnected) ∧
    dmbus_fd_handler ops fuel (RecvEv.closed :: evs) st =
      (evs, handle_disconnect st, some ()) ∧
    sync_recv (RecvEv.err e :: evs) st =
      (evs, { st with errLogs := st.errLogs + 1 }, .failed) ∧
    fdReadLoop (RecvEv.err e :: evs) st =
      (evs, { st with errLogs := st.errLogs + 1 }, .errored) ∧
    dmbus_fd_handler ops fuel (RecvEv.err e :: evs) st =
      (evs, { st with errLogs := st.errLogs + 1 }, some ()) ∧
    ({ st with errLogs := st.errLogs + 1 }).timerPending = st.timerPending ∧
    ({ st with errLogs := st.errLogs + 1 }).teardowns = st.teardowns := by
  refine ⟨?_, ?_, ?_, ?_, ?_, ?_, rfl, rfl⟩
  · simp [sync_recv, hb]
  · simp [fdReadLoop]
  · simp [dmbus_fd_handler, fdReadLoop]
  · simp [sync_recv, hb, he]
  · simp [fdReadLoop, he]
  · simp [dmbus_fd_handler, fdReadLoop, he]

/-- Witness for `recv_close_and_error_handling` at a concrete state and
errno 111. -/
theorem recv_close_and_error_handling_witness :
    sync_recv [RecvEv.closed] initSt = ([], handle_disconnect initSt, .failed) ∧
    sync_recv [RecvEv.err 111] initSt =
      ([], { initSt with errLogs := 1 }, .failed) := by
  have h := recv_close_and_error_handling none 0 [] initSt 111 (by decide) (by decide)
  exact ⟨h.1, h.2.2.2.1⟩

/-- Counterexample to C6 as stated: an interrupted-call error during
`dmbus_send` is surfaced to the caller as a failure (not retried), and a
would-block error in the synchronous receive path is surfaced as a
failure. -/
theorem transient_io_surfaced_cex :
    dmbus_send [SendEv.err EINTR] initSt 1 sampleMsg =
      ({ initSt with errLogs := 1 }, [], .failed) ∧
    sync_recv [RecvEv.err EAGAIN] initSt =
      ([], { initSt with errLogs := 1 }, .failed) := by
  decide

/-- C6 amended: only EINTR is retried transparently, and only in the two
receive paths; in the send path any error other than connection-reset
(including interrupted-call and would-block) is reported and surfaced as a
failure, and in the receive paths any non-EINTR error (including
would-block) is reported and ends the read with a failure. -/
theorem transient_io_retry_policy (evs : List RecvEv) (sevs : List SendEv)
    (st : RxState) (e : Nat) (data tr : List Nat) (b : Nat)
    (hb : frameComplete st.buff = false) (he : e ≠ ECONNRESET)
    (he2 : e ≠ EINTR) (hlen : b < data.length) :
    sync_recv (RecvEv.err EINTR :: evs) st = sync_recv evs st ∧
    fdReadLoop (RecvEv.err EINTR :: evs) st = fdReadLoop evs st ∧
    sendLoop data (SendEv.err e :: sevs) st b tr =
      ({ st with errLogs := st.errLogs + 1 }, tr, .failed) ∧
    sendLoop data (SendEv.err EINTR :: sevs) st b tr =
      ({ st with errLogs := st.errLogs + 1 }, tr, .failed) ∧
    sync_recv (RecvEv.err e :: evs) st =
      (evs, { st with errLogs := st.errLogs + 1 }, .failed) := by
  have hne : ¬ data.length ≤ b := by omega
  refine ⟨?_, ?_, ?_, ?_, ?_⟩
  · simp [sync_recv, hb]
  · rfl
  · simp [sendLoop, hne, he]
  · simp [sendLoop, hne, EINTR, ECONNRESET]
  · simp [sync_recv, hb, he2]

/-- Witness for `transient_io_retry_policy` with errno EAGAIN and a
one-byte message at offset 0. -/
theorem transient_io_retry_policy_witness :
    sync_recv [RecvEv.err EINTR, RecvEv.closed] initSt =
      sync_recv [RecvEv.closed] initSt ∧
    sendLoop [1] [SendEv.err EAGAIN] initSt 0 [] =
      ({ initSt with errLogs := 1 }, [], .failed) := by
  have h := transient_io_retry_policy [RecvEv.closed] [] initSt EAGAIN [1] [] 0
    (by decide) (by decide) (by decide) (by decide)
  exact ⟨h.1, h.2.2.1⟩

/-! ### C8: buffer bound preservation -/

theorem appendBytes_le_cap (st : RxState) (n : Nat)
    (hcap : st.buff.length ≤ DMBUS_MAX_MSG_LEN) :
    (appendBytes st (recvCount st n)).buff.length ≤ DMBUS_MAX_MSG_LEN := by
  unfold appendBytes recvCount
  simp only [List.length_append, List.length_take]
  omega

theorem sync_recv_buff_le_cap :
    ∀ (evs : List RecvEv) (st : RxState),
      st.buff.length ≤ DMBUS_MAX_MSG_LEN →
      (sync_recv evs st).2.1.buff.length ≤ DMBUS_MAX_MSG_LEN := by
  intro evs
  induction evs with
  | nil =>
      intro st hcap
      by_cases hc : frameComplete st.buff = true
      · simp [sync_recv, hc, hcap]
      · simp [sync_recv, hc, hcap]
  | cons ev rest ih =>
      intro st hcap
      by_cases hc : frameComplete st.buff = true
      · cases ev <;> simp [sync_recv, hc, hcap]
      · cases ev with
        | closed => simp [sync_recv, hc, handle_disconnect_buff, hcap]
        | err e =>
            by_cases he : e = EINTR
            · simpa [sync_recv, hc, he] using ih st hcap
            · simp [sync_recv, hc, he, hcap]
        | avail n =>
            by_cases hk : recvCount st n = 0
            · simp [sync_recv, hc, hk, handle_disconnect_buff, hcap]
            · simpa [sync_recv, hc, hk] using
                ih (appendBytes st (recvCount st n)) (appendBytes_le_cap st n hcap)

/-- C8: every operation touching the receive buffer — appending newly read
bytes in either receive path and popping a consumed frame — preserves
`0 ≤ length ≤ capacity`. -/
theorem buffer_length_bound_preserved (evs : List RecvEv) (st : RxState)
    (hcap : st.buff.length ≤ DMBUS_MAX_MSG_LEN) :
    (sync_recv evs st).2.1.buff.length ≤ DMBUS_MAX_MSG_LEN ∧
    (fdReadLoop evs st).2.1.buff.length ≤ DMBUS_MAX_MSG_LEN ∧
    (pop_message st).buff.length ≤ DMBUS_MAX_MSG_LEN ∧
    0 ≤ (pop_message st).buff.length := by
  refine ⟨sync_recv_buff_le_cap evs st hcap, ?_, ?_, Nat.zero_le _⟩
  · induction evs generalizing st with
    | nil => simpa [fdReadLoop] using hcap
    | cons ev rest ih =>
        cases ev with
        | closed => simp [fdReadLoop, handle_disconnect_buff, hcap]
        | err e =>
            by_cases he : e = EINTR
            · simpa [fdReadLoop, he] using ih st hcap
            · simp [fdReadLoop, he, hcap]
        | avail n =>
            by_cases hk : recvCount st n = 0
            · simp [fdReadLoop, hk, handle_disconnect_buff, hcap]
            · simpa [fdReadLoop, hk] using appendBytes_le_cap st n hcap
  · by_cases hc : frameComplete st.buff = true
    · rw [pop_message_eq st hc]
      simp only [List.length_drop]
      omega
    · rw [pop_message_of_incomplete st (by simpa using hc)]
      exact hcap

/-- Witness for `buffer_length_bound_preserved` on a concrete read burst. -/
theorem buffer_length_bound_preserved_witness :
    (sync_recv [RecvEv.avail 12] { initSt with stream := sampleMsg }).2.1.buff.length ≤
      DMBUS_MAX_MSG_LEN ∧
    (pop_message { initSt with buff := sampleMsg }).buff.length ≤ DMBUS_MAX_MSG_LEN := by
  have h1 := buffer_length_bound_preserved [RecvEv.avail 12]
    { initSt with stream := sampleMsg } (by decide)
  have h2 := buffer_length_bound_preserved [] { initSt with buff := sampleMsg } (by decide)
  exact ⟨h1.1, h2.2.2.1⟩

/-! ### C4: send-path header stamping -/

theorem take_take_len {α : Type} (l : List α) (n : Nat) :
    l.take ((l.take n).length) = l.take n := by
  rw [List.take_eq_take, List.length_take]
  omega

theorem sendLoop_done (data : List Nat) :
    ∀ (evs : List SendEv) (st : RxState) (b : Nat) (tr : List Nat)
      (st' : RxState) (tr' : List Nat) (n : Nat),
      tr = data.take b → b ≤ data.length →
      sendLoop data evs st b tr = (st', tr', .done n) →
      n = data.length ∧ tr' = data := by
  intro evs
  induction evs with
  | nil =>
      intro st b tr st' tr' n htr hb hrun
      by_cases hend : data.length ≤ b
      · simp only [sendLoop, if_pos hend, Prod.mk.injEq, SendResult.done.injEq] at hrun
        obtain ⟨h1, h2, h3⟩ := hrun
        have hbl : b = data.length := by omega
        subst hbl
        exact ⟨h3.symm, by rw [← h2, htr, List.take_length]⟩
      · simp only [sendLoop, if_neg hend] at hrun
        simp at hrun
  | cons ev rest ih =>
      intro st b tr st' tr' n htr hb hrun
      by_cases hend : data.length ≤ b
      · cases ev <;>
          simp only [sendLoop, if_pos hend, Prod.mk.injEq, SendResult.done.injEq] at hrun <;>
          (obtain ⟨h1, h2, h3⟩ := hrun
           have hbl : b = data.length := by omega
           subst hbl
           exact ⟨h3.symm, by rw [← h2, htr, List.take_length]⟩)
      · cases ev with
        | ok k =>
            simp only [sendLoop, if_neg hend] at hrun
            refine ih st (b + ((data.drop b).take k).length) (tr ++ (data.drop b).take k)
              st' tr' n ?_ ?_ hrun
            · rw [htr, List.take_add, take_take_len]
            · have : ((data.drop b).take k).length ≤ (data.drop b).length :=
                List.length_take_le' ..
              simp only [List.length_drop] at this
              omega
        | err e =>
            simp only [sendLoop, if_neg hend] at hrun
            by_cases he : e = ECONNRESET
            · simp [he] at hrun
            · simp [he] at hrun

theorem stampHeader_length (t : Nat) (d : List Nat) (h : hdrSize ≤ d.length) :
    (stampHeader t d).length = d.length := by
  unfold stampHeader enc32
  unfold hdrSize at *
  simp only [List.length_append, List.length_cons, List.length_nil, List.length_drop]
  omega

theorem msg_type_stampHeader (t : Nat) (d : List Nat) :
    msg_type (stampHeader t d) = t % 4294967296 := by
  unfold stampHeader enc32 msg_type byteAt
  simp only [List.cons_append, List.nil_append, List.getD_cons_zero, List.getD_cons_succ]
  omega

theorem msg_len_stampHeader (t : Nat) (d : List Nat) :
    msg_len (stampHeader t d) = d.length % 4294967296 := by
  unfold stampHeader enc32 msg_len byteAt
  simp only [List.cons_append, List.nil_append, List.getD_cons_zero, List.getD_cons_succ]
  omega

/-- C4: for every send of message type `T` over a buffer of `len(P)` bytes
and every schedule of partial writes that completes, the transmitted byte
sequence is the stamped buffer, whose header declares length `len(P)` and
type `T`. -/
theorem send_header_stamping (evs : List SendEv) (st : RxState) (T : Nat)
    (data : List Nat) (st' : RxState) (tr : List Nat) (n : Nat)
    (hhdr : hdrSize ≤ data.length)
    (hT : T < 4294967296) (hL : data.length < 4294967296)
    (hrun : dmbus_send evs st T data = (st', tr, .done n)) :
    tr = stampHeader T data ∧ n = data.length ∧
    msg_type tr = T ∧ msg_len tr = data.length := by
  unfold dmbus_send at hrun
  have h := sendLoop_done (stampHeader T data) evs st 0 [] st' tr n (by simp)
    (Nat.zero_le _) hrun
  have hlen := stampHeader_length T data hhdr
  refine ⟨h.2, by rw [h.1, hlen], ?_, ?_⟩
  · rw [h.2, msg_type_stampHeader, Nat.mod_eq_of_lt hT]
  · rw [h.2, msg_len_stampHeader, Nat.mod_eq_of_lt hL]

/-- Witness for `send_header_stamping`: a 10-byte message written in two
partial chunks of 4 and 6 bytes. -/
theorem send_header_stamping_witness :
    msg_type (stampHeader 3 sampleMsg) = 3 ∧
    msg_len (stampHeader 3 sampleMsg) = 10 := by
  have h := send_header_stamping [SendEv.ok 4, SendEv.ok 100] initSt 3 sampleMsg
    initSt (stampHeader 3 sampleMsg) 10 (by decide) (by decide) (by decide) (by decide)
  exact ⟨h.2.2.1, h.2.2.2.trans (by decide)⟩

/-! ### Frame goodness and header prefix stability -/

theorem byteAt_append (a c : List Nat) (i : Nat) (h : i < a.length) :
    byteAt (a ++ c) i = byteAt a i := by
  unfold byteAt
  exact List.getD_append a c 0 i h

theorem msg_type_append (a c : List Nat) (h : hdrSize ≤ a.length) :
    msg_type (a ++ c) = msg_type a := by
  unfold hdrSize at h
  unfold msg_type
  rw [byteAt_append a c 0 (by omega), byteAt_append a c 1 (by omega),
      byteAt_append a c 2 (by omega), byteAt_append a c 3 (by omega)]

theorem msg_len_append (a c : List Nat) (h : hdrSize ≤ a.length) :
    msg_len (a ++ c) = msg_len a := by
  unfold hdrSize at h
  unfold msg_len
  rw [byteAt_append a c 4 (by omega), byteAt_append a c 5 (by omega),
      byteAt_append a c 6 (by omega), byteAt_append a c 7 (by omega)]

theorem msg_type_take (b : List Nat) (L : Nat) (h8 : hdrSize ≤ L) (hL : L ≤ b.length) :
    msg_type (b.take L) = msg_type b := by
  conv_rhs => rw [← List.take_append_drop L b]
  rw [msg_type_append]
  rw [List.length_take]
  unfold hdrSize at *
  omega

theorem msg_len_take (b : List Nat) (L : Nat) (h8 : hdrSize ≤ L) (hL : L ≤ b.length) :
    msg_len (b.take L) = msg_len b := by
  conv_rhs => rw [← List.take_append_drop L b]
  rw [msg_len_append]
  rw [List.length_take]
  unfold hdrSize at *
  omega

theorem goodCheckF_norm : ∀ (k : Nat) (b : List Nat) (f : Nat),
    b.length ≤ k → b.length < f →
    goodCheckF f b = goodCheckF (b.length + 1) b := by
  intro k
  induction k with
  | zero =>
      intro b f hk hf
      have hb : b = [] := List.length_eq_zero.mp (Nat.le_zero.mp hk)
      subst hb
      obtain ⟨f', rfl⟩ : ∃ g, f = g + 1 := ⟨f - 1, by omega⟩
      simp [goodCheckF, frameComplete, hdrSize]
  | succ k ih =>
      intro b f hk hf
      obtain ⟨f', rfl⟩ : ∃ g, f = g + 1 := ⟨f - 1, by omega⟩
      by_cases hc : frameComplete b = true
      · have hcomp := (frameComplete_iff b).mp hc
        simp only [goodCheckF, hc, if_true]
        by_cases hL : hdrSize ≤ msg_len b
        · have hdl : (b.drop (msg_len b)).length = b.length - msg_len b := by simp
          have h1 : goodCheckF f' (b.drop (msg_len b)) =
              goodCheckF ((b.drop (msg_len b)).length + 1) (b.drop (msg_len b)) := by
            apply ih
            · unfold hdrSize at *
              omega
            · unfold hdrSize at *
              omega
          have h2 : goodCheckF b.length (b.drop (msg_len b)) =
              goodCheckF ((b.drop (msg_len b)).length + 1) (b.drop (msg_len b)) := by
            apply ih
            · unfold hdrSize at *
              omega
            · unfold hdrSize at *
              omega
          rw [h1, h2]
        · simp [hL]
      · simp [goodCheckF, hc]

theorem goodBuf_step (b : List Nat) (hg : goodBuf b) (hc : frameComplete b = true) :
    hdrSize ≤ msg_len b ∧ goodBuf (b.drop (msg_len b)) := by
  have hcomp := (frameComplete_iff b).mp hc
  unfold goodBuf at hg
  simp only [goodCheckF, hc, if_true, Bool.and_eq_true, decide_eq_true_eq] at hg
  obtain ⟨hL, hrec⟩ := hg
  refine ⟨hL, ?_⟩
  unfold goodBuf
  rw [← goodCheckF_norm (b.drop (msg_len b)).length (b.drop (msg_len b)) b.length
    (le_refl _) (by simp; unfold hdrSize at *; omega)]
  exact hrec

/-! ### sync_recv characterization -/

theorem appendBytes_concat (st : RxState) (k : Nat) :
    (appendBytes st k).buff ++ (appendBytes st k).stream = st.buff ++ st.stream := by
  unfold appendBytes
  simp [List.append_assoc]

theorem sync_recv_of_complete (evs : List RecvEv) (st : RxState)
    (hc : frameComplete st.buff = true) :
    sync_recv evs st = (evs, st, .gotFrame) := by
  cases evs with
  | nil => simp [sync_recv, hc]
  | cons ev rest => cases ev <;> simp [sync_recv, hc]

theorem sync_recv_eintr (evs : List RecvEv) (st : RxState)
    (hc : frameComplete st.buff = false) :
    sync_recv (RecvEv.err EINTR :: evs) st = sync_recv evs st := by
  simp [sync_recv, hc]

theorem sync_recv_avail (evs : List RecvEv) (st : RxState) (n : Nat)
    (hc : frameComplete st.buff = false) (hk : recvCount st n ≠ 0) :
    sync_recv (RecvEv.avail n :: evs) st =
      sync_recv evs (appendBytes st (recvCount st n)) := by
  simp [sync_recv, hc, hk]

theorem sync_recv_gotFrame :
    ∀ (evs : List RecvEv) (st : RxState) (evs' : List RecvEv) (st' : RxState),
      sync_recv evs st = (evs', st', .gotFrame) →
      st'.buff ++ st'.stream = st.buff ++ st.stream ∧
      frameComplete st'.buff = true ∧
      st'.handled = st.handled ∧
      evs'.length ≤ evs.length := by
  intro evs
  induction evs with
  | nil =>
      intro st evs' st' h
      by_cases hc : frameComplete st.buff = true
      · rw [sync_recv_of_complete [] st hc] at h
        injection h with h1 h2
        injection h2 with h2 h3
        subst h1
        subst h2
        exact ⟨rfl, hc, rfl, le_refl _⟩
      · simp [sync_recv, hc] at h
  | cons ev rest ih =>
      intro st evs' st' h
      by_cases hc : frameComplete st.buff = true
      · rw [sync_recv_of_complete (ev :: rest) st hc] at h
        injection h with h1 h2
        injection h2 with h2 h3
        subst h1
        subst h2
        exact ⟨rfl, hc, rfl, le_refl _⟩
      · have hcf : frameComplete st.buff = false := by simpa using hc
        cases ev with
        | closed => simp [sync_recv, hc] at h
        | err e =>
            by_cases he : e = EINTR
            · subst he
              rw [sync_recv_eintr rest st hcf] at h
              obtain ⟨h1, h2, h3, h4⟩ := ih st evs' st' h
              exact ⟨h1, h2, h3, by simpa using Nat.le_succ_of_le h4⟩
            · simp [sync_recv, hc, he] at h
        | avail n =>
            by_cases hk : recvCount st n = 0
            · simp [sync_recv, hc, hk] at h
            · rw [sync_recv_avail rest st n hcf hk] at h
              obtain ⟨h1, h2, h3, h4⟩ := ih (appendBytes st (recvCount st n)) evs' st' h
              refine ⟨?_, h2, ?_, by simpa using Nat.le_succ_of_le h4⟩
              · rw [h1, appendBytes_concat]
              · rw [h3]
                rfl

/-! ### C10: termination of the dispatch-and-pop loops -/

theorem processLoop_total :
    ∀ (k : Nat) (st : RxState) (ops : Option DmbusOps) (fuel : Nat),
      st.buff.length ≤ k → st.buff.length < fuel → goodBuf st.buff →
      processLoop ops fuel st ≠ none := by
  intro k
  induction k with
  | zero =>
      intro st ops fuel hk hf hg
      obtain ⟨f', rfl⟩ : ∃ g, fuel = g + 1 := ⟨fuel - 1, by omega⟩
      have hb : st.buff = [] := List.length_eq_zero.mp (by omega)
      have hc : frameComplete st.buff = false := by
        simp [frameComplete, hb, hdrSize]
      simp [processLoop, hc]
  | succ k ih =>
      intro st ops fuel hk hf hg
      obtain ⟨f', rfl⟩ : ∃ g, fuel = g + 1 := ⟨fuel - 1, by omega⟩
      by_cases hc : frameComplete st.buff = true
      · obtain ⟨hL, hgood⟩ := goodBuf_step st.buff hg hc
        have hcomp := (frameComplete_iff _).mp hc
        simp only [processLoop, hc, if_true]
        have hc1 : frameComplete
            ({ st with handled := st.handled ++ [st.buff.take (msg_len st.buff)] } :
              RxState).buff = true := hc
        rw [pop_message_eq _ hc1]
        apply ih
        · simp only [List.length_drop]
          unfold hdrSize at *
          omega
        · simp only [List.length_drop]
          unfold hdrSize at *
          omega
        · exact hgood
      · simp [processLoop, hc]

theorem dmbus_sync_recv_total :
    ∀ (fuel : Nat) (evs : List RecvEv) (st : RxState) (ops : Option DmbusOps)
      (ty size : Nat),
      goodBuf (st.buff ++ st.stream) →
      evs.length + (st.buff ++ st.stream).length < fuel →
      dmbus_sync_recv ops ty size fuel evs st ≠ none := by
  intro fuel
  induction fuel with
  | zero =>
      intro evs st ops ty size hg hlt
      exact absurd hlt (by omega)
  | succ f ih =>
      intro evs st ops ty size hg hlt
      rcases hsr : sync_recv evs st with ⟨evs1, st1, oc⟩
      cases oc with
      | failed => simp [dmbus_sync_recv, hsr]
      | stuck => simp [dmbus_sync_recv, hsr]
      | gotFrame =>
          obtain ⟨hconcat, hcomp1, hhand, hlen⟩ := sync_recv_gotFrame evs st evs1 st1 hsr
          have hcomp := (frameComplete_iff _).mp hcomp1
          by_cases hty : msg_type st1.buff = ty
          · simp [dmbus_sync_recv, hsr, hty]
          · simp only [dmbus_sync_recv, hsr, hty, if_neg, if_false]
            have hc1 : frameComplete
                ({ st1 with handled := st1.handled ++ [st1.buff.take (msg_len st1.buff)] } :
                  RxState).buff = true := hcomp1
            rw [pop_message_eq _ hc1]
            have hT : st1.buff ++ st1.stream = st.buff ++ st.stream := hconcat
            have hmlT : msg_len (st1.buff ++ st1.stream) = msg_len st1.buff :=
              msg_len_append st1.buff st1.stream hcomp.1
            have hcT : frameComplete (st1.buff ++ st1.stream) = true := by
              rw [frameComplete_iff]
              constructor
              · simp only [List.length_append]
                unfold hdrSize at *
                omega
              · rw [hmlT]
                simp only [List.length_append]
                omega
            have hgT : goodBuf (st1.buff ++ st1.stream) := by
              rw [hT]
              exact hg
            obtain ⟨hL, hgood⟩ := goodBuf_step (st1.buff ++ st1.stream) hgT hcT
            rw [hmlT] at hL hgood
            have hdropT : (st1.buff ++ st1.stream).drop (msg_len st1.buff) =
                st1.buff.drop (msg_len st1.buff) ++ st1.stream :=
              List.drop_append_of_le_length hcomp.2
            rw [hdropT] at hgood
            apply ih
            · exact hgood
            · have h1 : (st1.buff.drop (msg_len st1.buff) ++ st1.stream).length =
                  (st1.buff ++ st1.stream).length - msg_len st1.buff := by
                rw [← hdropT]
                simp
              have h2 : (st1.buff ++ st1.stream).length = (st.buff ++ st.stream).length := by
                rw [hT]
              simp only [List.length_append] at *
              unfold hdrSize at *
              omega

/-- C10: under the precondition that every complete frame at the front of
the (current and future) buffer declares a length of at least the header
size (`goodBuf`), the dispatch-and-pop loops terminate: popping a complete
frame strictly decreases the buffered length by the frame's declared
length, the async handler's loop finishes within `length` iterations, and
the blocking receive's loop finishes within `|oracle| + |bytes|`
iterations. -/
theorem dispatch_loops_terminate (ops : Option DmbusOps) (ty size fuel : Nat)
    (evs : List RecvEv) (st : RxState) :
    (frameComplete st.buff = true → hdrSize ≤ msg_len st.buff →
       (pop_message st).buff.length = st.buff.length - msg_len st.buff ∧
       (pop_message st).buff.length < st.buff.length) ∧
    (goodBuf st.buff → st.buff.length < fuel → processLoop ops fuel st ≠ none) ∧
    (goodBuf (st.buff ++ st.stream) →
       evs.length + (st.buff ++ st.stream).length < fuel →
       dmbus_sync_recv ops ty size fuel evs st ≠ none) := by
  refine ⟨?_, ?_, ?_⟩
  · intro hc hL
    have hcomp := (frameComplete_iff _).mp hc
    rw [pop_message_eq st hc]
    refine ⟨by simp, ?_⟩
    simp only [List.length_drop]
    unfold hdrSize at *
    omega
  · intro hg hf
    exact processLoop_total st.buff.length st ops fuel (le_refl _) hf hg
  · intro hg hlt
    exact dmbus_sync_recv_total fuel evs st ops ty size hg hlt

/-- Witness for `dispatch_loops_terminate` on a single 9-byte frame. -/
theorem dispatch_loops_terminate_witness :
    (pop_message { initSt with buff := [1,0,0,0, 9,0,0,0, 42] }).buff.length < 9 ∧
    processLoop (some ⟨false, false, false, false, false⟩) 20
      { initSt with buff := [1,0,0,0, 9,0,0,0, 42] } ≠ none ∧
    dmbus_sync_recv (some ⟨false, false, false, false, false⟩) 2 64 20 []
      { initSt with buff := [1,0,0,0, 9,0,0,0, 42] } ≠ none := by
  have h := dispatch_loops_terminate (some ⟨false, false, false, false, false⟩) 2 64 20 []
    { initSt with buff := [1,0,0,0, 9,0,0,0, 42] }
  have h1 := h.1 (by decide) (by decide)
  exact ⟨by simpa using h1.2, h.2.1 (by decide) (by decide), h.2.2 (by decide) (by decide)⟩

/-! ### C5: blocking receive of a specific type -/

theorem framesUpTo_norm : ∀ (k X : Nat) (b : List Nat) (f : Nat),
    b.length ≤ k → b.length < f → goodBuf b →
    framesUpTo X f b = framesUpTo X (b.length + 1) b := by
  intro k
  induction k with
  | zero =>
      intro X b f hk hf hg
      have hb : b = [] := List.length_eq_zero.mp (Nat.le_zero.mp hk)
      subst hb
      obtain ⟨f', rfl⟩ : ∃ g, f = g + 1 := ⟨f - 1, by omega⟩
      simp [framesUpTo, frameComplete, hdrSize]
  | succ k ih =>
      intro X b f hk hf hg
      obtain ⟨f', rfl⟩ : ∃ g, f = g + 1 := ⟨f - 1, by omega⟩
      by_cases hc : frameComplete b = true
      · obtain ⟨hL, hgood⟩ := goodBuf_step b hg hc
        have hcomp := (frameComplete_iff b).mp hc
        simp only [framesUpTo, hc, if_true]
        by_cases hX : msg_type b = X
        · simp [hX]
        · simp only [hX, if_false]
          have hdl : (b.drop (msg_len b)).length = b.length - msg_len b := by simp
          have h1 : framesUpTo X f' (b.drop (msg_len b)) =
              framesUpTo X ((b.drop (msg_len b)).length + 1) (b.drop (msg_len b)) := by
            apply ih
            · unfold hdrSize at *
              omega
            · unfold hdrSize at *
              omega
            · exact hgood
          have h2 : framesUpTo X b.length (b.drop (msg_len b)) =
              framesUpTo X ((b.drop (msg_len b)).length + 1) (b.drop (msg_len b)) := by
            apply ih
            · unfold hdrSize at *
              omega
            · unfold hdrSize at *
              omega
            · exact hgood
          rw [h1, h2]
      · simp [framesUpTo, hc]

/-- C5: whenever `dmbus_sync_recv(type = X)` returns successfully, every
complete frame preceding the first frame of type `X` in the byte sequence
(buffered plus still-to-arrive) has been dispatched, in order, through
`handle_message` and removed; the first `X` frame's prefix of
`min size msg_len` bytes is copied to the caller with that count returned;
and afterwards none of the `X` frame's bytes remain: the remaining bytes
are exactly those after the `X` frame. -/
theorem sync_recv_dispatch_until_type :
    ∀ (fuel : Nat) (ops : Option DmbusOps) (X size : Nat) (evs : List RecvEv)
      (st : RxState) (fs : List (List Nat)) (fx rest : List Nat)
      (evs' : List RecvEv) (st' : RxState) (copied : List Nat) (n : Nat),
      goodBuf (st.buff ++ st.stream) →
      framesUpTo X ((st.buff ++ st.stream).length + 1) (st.buff ++ st.stream) =
        some (fs, fx, rest) →
      dmbus_sync_recv ops X size fuel evs st = some (evs', st', some (copied, n)) →
      st'.handled = st.handled ++ fs ∧
      (∀ g ∈ fs, msg_type g ≠ X ∧ frameComplete g = true) ∧
      msg_type fx = X ∧
      fx.length = msg_len fx ∧
      n = min size fx.length ∧
      copied = fx.take n ∧
      st'.buff ++ st'.stream = rest := by
  intro fuel
  induction fuel with
  | zero =>
      intro ops X size evs st fs fx rest evs' st' copied n hg hparse hrun
      simp [dmbus_sync_recv] at hrun
  | succ f ih =>
      intro ops X size evs st fs fx rest evs' st' copied n hg hparse hrun
      rcases hsr : sync_recv evs st with ⟨evs1, st1, oc⟩
      cases oc with
      | failed => simp [dmbus_sync_recv, hsr] at hrun
      | stuck => simp [dmbus_sync_recv, hsr] at hrun
      | gotFrame =>
          obtain ⟨hconcat, hcomp1, hhand, hlen⟩ := sync_recv_gotFrame evs st evs1 st1 hsr
          rw [← hconcat] at hparse hg
          have hcomp := (frameComplete_iff _).mp hcomp1
          have hmlT : msg_len (st1.buff ++ st1.stream) = msg_len st1.buff :=
            msg_len_append st1.buff st1.stream hcomp.1
          have hmtT : msg_type (st1.buff ++ st1.stream) = msg_type st1.buff :=
            msg_type_append st1.buff st1.stream hcomp.1
          have hcT : frameComplete (st1.buff ++ st1.stream) = true := by
            rw [frameComplete_iff]
            constructor
            · simp only [List.length_append]
              unfold hdrSize at *
              omega
            · rw [hmlT]
              simp only [List.length_append]
              omega
          obtain ⟨hL, hgood⟩ := goodBuf_step (st1.buff ++ st1.stream) hg hcT
          rw [hmlT] at hL hgood
          have hdropT : (st1.buff ++ st1.stream).drop (msg_len st1.buff) =
              st1.buff.drop (msg_len st1.buff) ++ st1.stream :=
            List.drop_append_of_le_length hcomp.2
          have htakeT : (st1.buff ++ st1.stream).take (msg_len st1.buff) =
              st1.buff.take (msg_len st1.buff) :=
            List.take_append_of_le_length hcomp.2
          simp only [framesUpTo, hcT, if_true, hmlT, hmtT] at hparse
          by_cases hty : msg_type st1.buff = X
          · rw [if_pos hty] at hparse
            simp only [Option.some.injEq, Prod.mk.injEq] at hparse
            obtain ⟨hfs, hfx, hrest⟩ := hparse
            subst hfs
            subst hfx
            subst hrest
            simp only [dmbus_sync_recv, hsr, hty, if_true, Option.some.injEq,
              Prod.mk.injEq] at hrun
            obtain ⟨hevs, hst, hcopied, hn⟩ := hrun
            subst hevs
            subst hst
            subst hcopied
            subst hn
            have hpop := pop_message_eq st1 hcomp1
            have hfxlen : ((st1.buff ++ st1.stream).take (msg_len st1.buff)).length =
                msg_len st1.buff := by
              rw [List.length_take]
              simp only [List.length_append]
              omega
            have hfxml : msg_len ((st1.buff ++ st1.stream).take (msg_len st1.buff)) =
                msg_len st1.buff := by
              rw [msg_len_take _ _ hL]
              · exact hmlT
              · simp only [List.length_append]
                omega
            refine ⟨?_, ?_, ?_, ?_, ?_, ?_, ?_⟩
            · rw [hpop]
              simpa using hhand
            · intro g hgmem
              simp at hgmem
            · rw [msg_type_take _ _ hL]
              · rw [hmtT]
                exact hty
              · simp only [List.length_append]
                omega
            · rw [hfxlen, hfxml]
            · rw [hfxlen]
            · rw [htakeT]
              rw [List.take_take]
              have : min (min size (msg_len st1.buff)) (msg_len st1.buff) =
                  min size (msg_len st1.buff) := by omega
              rw [this]
            · rw [hpop]
              simp only
              rw [← hdropT]
          · rw [if_neg hty] at hparse
            rcases hinner : framesUpTo X (st1.buff ++ st1.stream).length
                ((st1.buff ++ st1.stream).drop (msg_len st1.buff)) with _ | ⟨⟨fs', fx', rest'⟩⟩
            · rw [hinner] at hparse
              simp at hparse
            · rw [hinner] at hparse
              simp only [Option.some.injEq, Prod.mk.injEq] at hparse
              obtain ⟨hfs, hfx, hrest⟩ := hparse
              subst hfs
              subst hfx
              subst hrest
              simp only [dmbus_sync_recv, hsr, hty, if_false] at hrun
              have hc1 : frameComplete
                  ({ st1 with handled :=
                      st1.handled ++ [st1.buff.take (msg_len st1.buff)] } : RxState).buff =
                    true := hcomp1
              rw [pop_message_eq _ hc1] at hrun
              have hg2 : goodBuf
                  ((st1.buff.drop (msg_len st1.buff)) ++ st1.stream) := by
                rw [← hdropT]
                exact hgood
              have hparse2 : framesUpTo X
                  (((st1.buff.drop (msg_len st1.buff)) ++ st1.stream).length + 1)
                  ((st1.buff.drop (msg_len st1.buff)) ++ st1.stream) =
                    some (fs', fx', rest') := by
                rw [← framesUpTo_norm ((st1.buff.drop (msg_len st1.buff)) ++
                    st1.stream).length X _ (st1.buff ++ st1.stream).length (le_refl _) ?_ hg2]
                · rw [← hdropT]
                  exact hinner
                · rw [← hdropT]
                  simp only [List.length_drop, List.length_append]
                  unfold hdrSize at *
                  omega
              have hih := ih ops X size evs1
                ({ st1 with
                    handled := st1.handled ++ [st1.buff.take (msg_len st1.buff)],
                    buff := st1.buff.drop (msg_len st1.buff) } : RxState)
                fs' fx' rest' evs' st' copied n ?_ ?_ ?_
              · obtain ⟨ih1, ih2, ih3, ih4, ih5, ih6, ih7⟩ := hih
                refine ⟨?_, ?_, ih3, ih4, ih5, ih6, ih7⟩
                · rw [ih1]
                  simp only
                  rw [hhand, htakeT]
                  simp [List.append_assoc]
                · intro g hgmem
                  rcases List.mem_cons.mp hgmem with hghead | hgtail
                  · subst hghead
                    have hmt : msg_type ((st1.buff ++ st1.stream).take (msg_len st1.buff)) =
                        msg_type st1.buff := by
                      rw [msg_type_take _ _ hL]
                      · exact hmtT
                      · simp only [List.length_append]
                        omega
                    have hml : msg_len ((st1.buff ++ st1.stream).take (msg_len st1.buff)) =
                        msg_len st1.buff := by
                      rw [msg_len_take _ _ hL]
                      · exact hmlT
                      · simp only [List.length_append]
                        omega
                    have hlen2 : ((st1.buff ++ st1.stream).take (msg_len st1.buff)).length =
                        msg_len st1.buff := by
                      rw [List.length_take]
                      simp only [List.length_append]
                      omega
                    refine ⟨?_, ?_⟩
                    · rw [hmt]
                      exact hty
                    · rw [frameComplete_iff]
                      rw [hml, hlen2]
                      exact ⟨hL, le_refl _⟩
                  · exact ih2 g hgtail
              · simp only
                exact hg2
              · simp only
                exact hparse2
              · exact hrun

/-- Witness for `sync_recv_dispatch_until_type`: frames of types 2, 3, 1
buffered back-to-back; receiving type 1 dispatches the first two and
returns the 10-byte type-1 frame. -/
theorem sync_recv_dispatch_until_type_witness :
    (10 : Nat) = min 100 ([1,0,0,0, 10,0,0,0, 5,6] : List Nat).length ∧
    ([1,0,0,0, 10,0,0,0, 5,6] : List Nat) = ([1,0,0,0, 10,0,0,0, 5,6] : List Nat).take 10 ∧
    msg_type [1,0,0,0, 10,0,0,0, 5,6] = 1 := by
  have h := sync_recv_dispatch_until_type 5 (some ⟨false, false, false, false, false⟩) 1 100
    []
    { initSt with buff := [2,0,0,0,8,0,0,0] ++ [3,0,0,0,8,0,0,0] ++ [1,0,0,0,10,0,0,0,5,6] }
    [[2,0,0,0,8,0,0,0], [3,0,0,0,8,0,0,0]] [1,0,0,0,10,0,0,0,5,6] []
    [] { initSt with buff := [], handled := [[2,0,0,0,8,0,0,0], [3,0,0,0,8,0,0,0]] }
    [1,0,0,0,10,0,0,0,5,6] 10 (by decide) (by decide) (by decide)
  exact ⟨h.2.2.2.2.1, h.2.2.2.2.2.1, h.2.2.1⟩
